import Mathlib

/-!
Verification development for the asset-processor core: the file-selection,
content-hashing / change-detection and CDN-publish orchestration engine
(`lib/assetProcessor.js`) together with its storage client (`lib/s3.js`).

JavaScript strings are modelled as lists of characters (`JStr`); machine
integers do not occur in the relevant code paths.  Asynchronous
callback-style code is modelled by explicit data flow: the outcome of each
external probe or upload attempt is an input to the embedded function, and
emitted events are collected in the returned record.
-/

namespace AssetProc

/-- Model of a JavaScript string: a list of characters. -/
abbrev JStr := List Char

/-- Model of `String.prototype.toLowerCase` (character-wise lowering). -/
def jsToLower (s : JStr) : JStr := s.map Char.toLower

/-- Model of the JavaScript `<` comparison on strings: lexicographic
comparison of code units, a proper prefix comparing smaller. -/
def jsLtb : JStr → JStr → Bool
  | [], [] => false
  | [], _ :: _ => true
  | _ :: _, [] => false
  | a :: as, b :: bs =>
    if a < b then true else if b < a then false else jsLtb as bs

/-- Model of `haystack.indexOf(needle)` for strings: index of the first
occurrence of `needle` as a contiguous substring, `none` when absent
(JavaScript returns `-1`).  The empty needle occurs at index `0`. -/
def jsIndexOfSub : JStr → JStr → Option Nat
  | hay, needle =>
    if needle.isPrefixOf hay then some 0
    else
      match hay with
      | [] => none
      | _ :: rest => (jsIndexOfSub rest needle).map (· + 1)

/-! ## Storage client (`lib/s3.js`) -/

/-- Embedding of the private helper `_cleanPath` (s3.js line 201): every
backslash in the path is replaced by a forward slash. -/
def _cleanPath (p : JStr) : JStr :=
  p.map (fun c => if c = Char.ofNat 92 then '/' else c)

/-- Configuration state of the wrapped S3 client: the bucket name and the
optional cloudfront mapping set by `setCloudfrontMapping`. -/
structure S3Config where
  bucket : JStr
  cloudfrontMapping : Option JStr

/-- Helper for the statement `if (path[0] === '/') path = path.substr(1)`
in `urlWithBucket`: removes one leading forward slash when present. -/
def stripOneLeadingSlash (q : JStr) : JStr :=
  match q with
  | [] => []
  | c :: rest => if c = '/' then rest else c :: rest

/-- Embedding of `S3.prototype.urlWithBucket` (s3.js lines 171-181):
backslashes become forward slashes, one leading slash (if any) is removed,
then the url is formed from the cloudfront mapping when one is configured
and otherwise from the s3 endpoint and the lowercased bucket name. -/
def urlWithBucket (s3 : S3Config) (p : JStr) : JStr :=
  let p1 := p.map (fun c => if c = Char.ofNat 92 then '/' else c)
  let p2 := stripOneLeadingSlash p1
  match s3.cloudfrontMapping with
  | some m => "https://".toList ++ m ++ ".cloudfront.net/".toList ++ p2
  | none => "https://s3.amazonaws.com/".toList ++ jsToLower s3.bucket ++ "/".toList ++ p2

/-- Outcome of the metadata probe issued by `client.headFile`: either a
transport-level error or a response carrying a status code. -/
inductive HeadOutcome where
  | transportError (e : JStr)
  | response (statusCode : Nat)
deriving DecidableEq

/-- Embedding of `S3.prototype.fileExists` (s3.js lines 153-164): the path
is cleaned, the head probe runs on it, and the callback receives the probe
error together with `response && response.statusCode === 200` (falsy when
the probe erred and no response exists). -/
def fileExists (head : JStr → HeadOutcome) (p : JStr) : Option JStr × Bool :=
  match head (_cleanPath p) with
  | .transportError e => (some e, false)
  | .response code => (none, code == 200)

/-- Outcome of one underlying `client.putBuffer` / `client.putStream`
attempt: success (a truthy result, no error) or failure with an error. -/
inductive PutAttempt where
  | success
  | failure (e : JStr)
deriving DecidableEq

/-- Checks whether an attempt outcome is a failure. -/
def PutAttempt.isFailure : PutAttempt → Bool
  | .success => false
  | .failure _ => true

/-- Result delivered to the caller of `putBuffer` / `putFile`: the error
given to the final callback, the url (`fileUpload`) given alongside it, and
the list of backoff delays (in ms) slept through, in order. -/
structure PutResult where
  err : Option JStr
  url : Option JStr
  delays : List Nat
deriving DecidableEq

/-- Upper retry bound `maxTries` from s3.js (lines 72 and 119). -/
def maxTries : Nat := 3

/-- Embedding of the `async.until` retry loop shared verbatim by
`S3.prototype.putBuffer` (s3.js lines 76-98) and `S3.prototype.putFile`
(s3.js lines 123-145).  `attempt n` is the outcome of the (0-indexed) n-th
underlying client call, `url` the value `self.urlWithBucket(path)` assigned
to `fileUpload` on success.  State: `numTries` attempts made so far,
`fileUpload` and the accumulated backoff `delays`.  The loop body runs while
`!(fileUpload || numTries > maxTries)`; a failed attempt with
`++numTries <= maxTries` has its error swallowed after recording the delay
`2^(10+numTries)`; otherwise the error aborts the loop. -/
def putRetryLoop (attempt : Nat → PutAttempt) (url : JStr)
    (numTries : Nat) (fileUpload : Option JStr) (delays : List Nat) : PutResult :=
  if fileUpload.isSome ∨ numTries > maxTries then
    ⟨none, fileUpload, delays⟩
  else
    match attempt numTries with
    | .success => putRetryLoop attempt url (numTries + 1) (some url) delays
    | .failure e =>
      if numTries + 1 ≤ maxTries then
        putRetryLoop attempt url (numTries + 1) none (delays ++ [2 ^ (10 + (numTries + 1))])
      else
        ⟨some e, none, delays⟩
termination_by maxTries + 1 - numTries
decreasing_by
  all_goals simp [maxTries] at *
  all_goals omega

/-- Embedding of `S3.prototype.putBuffer` (s3.js lines 60-99): the target
path is cleaned, then the retry loop runs with
`url = self.urlWithBucket(path)` for the cleaned path. -/
def putBuffer (attempt : Nat → PutAttempt) (s3 : S3Config) (p : JStr) : PutResult :=
  putRetryLoop attempt (urlWithBucket s3 (_cleanPath p)) 0 none []

/-- Embedding of `S3.prototype.putFile` (s3.js lines 109-146): identical
retry structure over `client.putStream`, with the cleaned target path. -/
def putFile (attempt : Nat → PutAttempt) (s3 : S3Config) (targetPath : JStr) : PutResult :=
  putRetryLoop attempt (urlWithBucket s3 (_cleanPath targetPath)) 0 none []

/-! ## Claim C2: bounded retry with exponential backoff -/

/-- Characterization of failing attempts. -/
theorem PutAttempt.isFailure_iff (a : PutAttempt) :
    a.isFailure = true ↔ ∃ e, a = .failure e := by
  cases a <;> simp [PutAttempt.isFailure]

/-- Loop exit: when `fileUpload` is set or the try budget is exceeded, the
final callback receives no error, the stored url and the delays so far. -/
theorem putRetryLoop_stop (attempt : Nat → PutAttempt) (url : JStr)
    (n : Nat) (fu : Option JStr) (delays : List Nat)
    (h : fu.isSome ∨ n > maxTries) :
    putRetryLoop attempt url n fu delays = ⟨none, fu, delays⟩ := by
  rw [putRetryLoop]
  simp [h]

/-- Loop step on a successful attempt: `fileUpload` is set to the url. -/
theorem putRetryLoop_step_succ (attempt : Nat → PutAttempt) (url : JStr)
    (n : Nat) (delays : List Nat) (hn : n ≤ maxTries)
    (hs : attempt n = .success) :
    putRetryLoop attempt url n none delays
      = putRetryLoop attempt url (n + 1) (some url) delays := by
  rw [putRetryLoop]
  simp [Nat.not_lt.mpr hn, hs]

/-- Loop step on a failed attempt within the retry budget: the error is
swallowed and the backoff delay `2^(10+numTries)` is recorded. -/
theorem putRetryLoop_step_fail_retry (attempt : Nat → PutAttempt) (url : JStr)
    (n : Nat) (delays : List Nat) (e : JStr) (hn : n ≤ maxTries)
    (hf : attempt n = .failure e) (hn2 : n + 1 ≤ maxTries) :
    putRetryLoop attempt url n none delays
      = putRetryLoop attempt url (n + 1) none (delays ++ [2 ^ (10 + (n + 1))]) := by
  rw [putRetryLoop]
  simp [Nat.not_lt.mpr hn, hf, hn2]

/-- Loop step on a failed attempt past the retry budget: the last error is
surfaced to the final callback. -/
theorem putRetryLoop_step_fail_last (attempt : Nat → PutAttempt) (url : JStr)
    (n : Nat) (delays : List Nat) (e : JStr) (hn : n ≤ maxTries)
    (hf : attempt n = .failure e) (hn2 : ¬ (n + 1 ≤ maxTries)) :
    putRetryLoop attempt url n none delays = ⟨some e, none, delays⟩ := by
  rw [putRetryLoop]
  simp [Nat.not_lt.mpr hn, hf, hn2]

/-- Behaviour of the retry loop when the first success is attempt `n`
(0-indexed, within the budget of `maxTries` retries after the first try):
no error, the url is delivered, and the backoff delays double per retry. -/
theorem putRetryLoop_firstSuccess (attempt : Nat → PutAttempt) (url : JStr)
    (n : Nat) (hn : n ≤ maxTries)
    (hfail : ∀ i, i < n → (attempt i).isFailure = true)
    (hs : attempt n = .success) :
    putRetryLoop attempt url 0 none []
      = ⟨none, some url, (List.range n).map (fun i => 2 ^ (11 + i))⟩ := by
  simp only [maxTries] at hn
  interval_cases n
  · rw [putRetryLoop_step_succ attempt url 0 [] (by simp [maxTries]) hs,
      putRetryLoop_stop attempt url 1 (some url) [] (Or.inl rfl)]
    simp
  · obtain ⟨e₀, he₀⟩ := (PutAttempt.isFailure_iff _).mp (hfail 0 (by norm_num))
    rw [putRetryLoop_step_fail_retry attempt url 0 [] e₀ (by simp [maxTries]) he₀ (by simp [maxTries]),
      putRetryLoop_step_succ attempt url 1 _ (by simp [maxTries]) hs,
      putRetryLoop_stop attempt url 2 (some url) _ (Or.inl rfl)]
    norm_num [List.range_succ]
  · obtain ⟨e₀, he₀⟩ := (PutAttempt.isFailure_iff _).mp (hfail 0 (by norm_num))
    obtain ⟨e₁, he₁⟩ := (PutAttempt.isFailure_iff _).mp (hfail 1 (by norm_num))
    rw [putRetryLoop_step_fail_retry attempt url 0 [] e₀ (by simp [maxTries]) he₀ (by simp [maxTries]),
      putRetryLoop_step_fail_retry attempt url 1 _ e₁ (by simp [maxTries]) he₁ (by simp [maxTries]),
      putRetryLoop_step_succ attempt url 2 _ (by simp [maxTries]) hs,
      putRetryLoop_stop attempt url 3 (some url) _ (Or.inl rfl)]
    norm_num [List.range_succ]
  · obtain ⟨e₀, he₀⟩ := (PutAttempt.isFailure_iff _).mp (hfail 0 (by norm_num))
    obtain ⟨e₁, he₁⟩ := (PutAttempt.isFailure_iff _).mp (hfail 1 (by norm_num))
    obtain ⟨e₂, he₂⟩ := (PutAttempt.isFailure_iff _).mp (hfail 2 (by norm_num))
    rw [putRetryLoop_step_fail_retry attempt url 0 [] e₀ (by simp [maxTries]) he₀ (by simp [maxTries]),
      putRetryLoop_step_fail_retry attempt url 1 _ e₁ (by simp [maxTries]) he₁ (by simp [maxTries]),
      putRetryLoop_step_fail_retry attempt url 2 _ e₂ (by simp [maxTries]) he₂ (by simp [maxTries]),
      putRetryLoop_step_succ attempt url 3 _ (by simp [maxTries]) hs,
      putRetryLoop_stop attempt url 4 (some url) _ (Or.inl rfl)]
    norm_num [List.range_succ]

/-- Behaviour of the retry loop when all four attempts (the first try and
`maxTries = 3` retries) fail: the last error is surfaced, no url is
produced, and exactly three doubling backoff delays elapsed. -/
theorem putRetryLoop_allFail (attempt : Nat → PutAttempt) (url : JStr)
    (e₀ e₁ e₂ e₃ : JStr)
    (h0 : attempt 0 = .failure e₀) (h1 : attempt 1 = .failure e₁)
    (h2 : attempt 2 = .failure e₂) (h3 : attempt 3 = .failure e₃) :
    putRetryLoop attempt url 0 none [] = ⟨some e₃, none, [2048, 4096, 8192]⟩ := by
  rw [putRetryLoop_step_fail_retry attempt url 0 [] e₀ (by simp [maxTries]) h0 (by simp [maxTries]),
    putRetryLoop_step_fail_retry attempt url 1 _ e₁ (by simp [maxTries]) h1 (by simp [maxTries]),
    putRetryLoop_step_fail_retry attempt url 2 _ e₂ (by simp [maxTries]) h2 (by simp [maxTries]),
    putRetryLoop_step_fail_last attempt url 3 _ e₃ (by simp [maxTries]) h3 (by simp [maxTries])]
  norm_num

/-- C2: for both put operations, a failed attempt is retried at most
`maxTries = 3` times after the first attempt, with a backoff delay that
doubles per attempt (2048ms, 4096ms, 8192ms) between attempts; the first
successful attempt short-circuits the remaining retries and yields the
public URL of the (cleaned) key with one delay per preceding failure; if
all four attempts fail, the last underlying error is surfaced. -/
theorem C2_put_retry_policy (attempt : Nat → PutAttempt) (s3 : S3Config) (p : JStr) :
    (∀ n, n ≤ maxTries → (∀ i, i < n → (attempt i).isFailure = true) →
      attempt n = .success →
      putBuffer attempt s3 p
        = ⟨none, some (urlWithBucket s3 (_cleanPath p)), (List.range n).map (fun i => 2 ^ (11 + i))⟩
      ∧ putFile attempt s3 p
        = ⟨none, some (urlWithBucket s3 (_cleanPath p)), (List.range n).map (fun i => 2 ^ (11 + i))⟩)
    ∧ (∀ e₀ e₁ e₂ e₃, attempt 0 = .failure e₀ → attempt 1 = .failure e₁ →
        attempt 2 = .failure e₂ → attempt 3 = .failure e₃ →
        putBuffer attempt s3 p = ⟨some e₃, none, [2048, 4096, 8192]⟩
        ∧ putFile attempt s3 p = ⟨some e₃, none, [2048, 4096, 8192]⟩) := by
  constructor
  · intro n hn hfail hs
    exact ⟨putRetryLoop_firstSuccess attempt _ n hn hfail hs,
      putRetryLoop_firstSuccess attempt _ n hn hfail hs⟩
  · intro e₀ e₁ e₂ e₃ h0 h1 h2 h3
    exact ⟨putRetryLoop_allFail attempt _ e₀ e₁ e₂ e₃ h0 h1 h2 h3,
      putRetryLoop_allFail attempt _ e₀ e₁ e₂ e₃ h0 h1 h2 h3⟩

/-- C2 witness: an attempt sequence failing twice then succeeding returns
the public url with exactly the two delays 2048ms and 4096ms and no error,
for both `putBuffer` and `putFile`, by the retry theorem at that input. -/
theorem C2_put_retry_policy_witness :
    putBuffer (fun i => if i < 2 then .failure "boom".toList else .success)
        ⟨"b".toList, none⟩ "k".toList
      = ⟨none, some "https://s3.amazonaws.com/b/k".toList, [2048, 4096]⟩
    ∧ putFile (fun i => if i < 2 then .failure "boom".toList else .success)
        ⟨"b".toList, none⟩ "k".toList
      = ⟨none, some "https://s3.amazonaws.com/b/k".toList, [2048, 4096]⟩ := by
  have h := (C2_put_retry_policy
    (fun i => if i < 2 then .failure "boom".toList else .success)
    ⟨"b".toList, none⟩ "k".toList).1 2 (by decide)
    (by intro i hi; interval_cases i <;> decide) (by decide)
  refine ⟨?_, ?_⟩
  · rw [h.1]
    decide
  · rw [h.2]
    decide

/-! ## Claim C8: public-URL mapping -/

/-- Modelled from the claim (C8 spec words, for comparison with
`urlWithBucket`): the key is normalized to forward slashes with no leading
slash at all, and the URL uses the bucket name as configured. -/
def specPublicUrl (s3 : S3Config) (p : JStr) : JStr :=
  let k := (_cleanPath p).dropWhile (· = '/')
  match s3.cloudfrontMapping with
  | some m => "https://".toList ++ m ++ ".cloudfront.net/".toList ++ k
  | none => "https://s3.amazonaws.com/".toList ++ s3.bucket ++ "/".toList ++ k

/-- Amended normalization (C8): forward slashes with no leading slash, URL
formed from the LOWERCASED bucket name; `urlWithBucket` agrees with this
whenever the slash-normalized key does not begin with a double slash. -/
def specPublicUrlLower (s3 : S3Config) (p : JStr) : JStr :=
  let k := (_cleanPath p).dropWhile (· = '/')
  match s3.cloudfrontMapping with
  | some m => "https://".toList ++ m ++ ".cloudfront.net/".toList ++ k
  | none => "https://s3.amazonaws.com/".toList ++ jsToLower s3.bucket ++ "/".toList ++ k

/-- C8 counterexample: the claim fails on the code in two ways.  The code
lowercases the bucket name (key "a", bucket "B"), and it removes at most
one leading slash, so the key "//a" keeps a leading slash in the URL. -/
theorem C8_counterexample :
    urlWithBucket ⟨"B".toList, none⟩ "a".toList
      = "https://s3.amazonaws.com/b/a".toList
    ∧ specPublicUrl ⟨"B".toList, none⟩ "a".toList
      = "https://s3.amazonaws.com/B/a".toList
    ∧ urlWithBucket ⟨"b".toList, none⟩ "//a".toList
      = "https://s3.amazonaws.com/b//a".toList
    ∧ specPublicUrl ⟨"b".toList, none⟩ "//a".toList
      = "https://s3.amazonaws.com/b/a".toList
    ∧ urlWithBucket ⟨"B".toList, none⟩ "a".toList
      ≠ specPublicUrl ⟨"B".toList, none⟩ "a".toList
    ∧ urlWithBucket ⟨"b".toList, none⟩ "//a".toList
      ≠ specPublicUrl ⟨"b".toList, none⟩ "//a".toList := by
  refine ⟨by decide, by decide, by decide, by decide, by decide, by decide⟩

/-- Removing one leading slash agrees with removing all leading slashes on
lists that do not begin with two slashes. -/
theorem stripOneSlash_eq_dropWhile (q : JStr)
    (h : "//".toList.isPrefixOf q = false) :
    stripOneLeadingSlash q = q.dropWhile (· = '/') := by
  unfold stripOneLeadingSlash
  match q with
  | [] => rfl
  | c :: rest =>
    by_cases hc : c = '/'
    · subst hc
      match rest with
      | [] => rfl
      | d :: rest2 =>
        have hd : ¬ (d = '/') := by
          intro hd
          subst hd
          simp [List.isPrefixOf] at h
        simp [List.dropWhile, hd]
    · simp [List.dropWhile, hc]

/-- C8 (amended): for every configuration and key whose slash-normalized
form does not begin with a double slash, the public URL is a deterministic
function of key and configuration, the key is normalized to forward slashes
with no leading slash, and the URL points at the CDN domain when a mapping
is configured, otherwise at the storage endpoint followed by the lowercased
bucket name and the normalized key.  (The code removes at most one leading
slash and lowercases the bucket, which is what the counterexample forces.) -/
theorem C8_publicUrl_amended (s3 : S3Config) (p : JStr)
    (h : "//".toList.isPrefixOf (_cleanPath p) = false) :
    urlWithBucket s3 p = specPublicUrlLower s3 p := by
  have hstrip := stripOneSlash_eq_dropWhile (_cleanPath p) h
  simp only [_cleanPath] at hstrip
  cases hm : s3.cloudfrontMapping <;>
    simp only [urlWithBucket, specPublicUrlLower, _cleanPath, hm, hstrip]

/-- C8 amended witness: concrete evaluation through the amended theorem at
bucket "MyBucket" and a key containing a backslash and a leading slash. -/
theorem C8_publicUrl_amended_witness :
    "//".toList.isPrefixOf (_cleanPath "/K\\ey".toList) = false
    ∧ urlWithBucket ⟨"MyBucket".toList, none⟩ "/K\\ey".toList
      = specPublicUrlLower ⟨"MyBucket".toList, none⟩ "/K\\ey".toList :=
  ⟨by decide, C8_publicUrl_amended ⟨"MyBucket".toList, none⟩ "/K\\ey".toList (by decide)⟩

/-! ## Claim C9: existence check -/

/-- C9: for every key, the existence check reports true exactly when the
response of the metadata probe has status code 200; any other status code yields
false with no error, and a transport-level failure of the probe itself is
the only case in which an error reaches the caller (and then the reported
existence value is falsy). -/
theorem C9_fileExists_status (head : JStr → HeadOutcome) (p : JStr) :
    ((fileExists head p).2 = true ↔ head (_cleanPath p) = .response 200)
    ∧ ((fileExists head p).1 =
        match head (_cleanPath p) with
        | .transportError e => some e
        | .response _ => none)
    ∧ (∀ e, head (_cleanPath p) = .transportError e → (fileExists head p).2 = false) := by
  refine ⟨?_, ?_, ?_⟩
  · cases h : head (_cleanPath p) with
    | transportError e => simp [fileExists, h]
    | response code => simp [fileExists, h]
  · cases h : head (_cleanPath p) <;> simp [fileExists, h]
  · intro e he
    simp [fileExists, he]

/-- C9 witness: concrete evaluation through the theorem for a probe whose
transport fails, discharging the implication there. -/
theorem C9_fileExists_status_witness :
    (fileExists (fun _ => HeadOutcome.transportError "te".toList) "k".toList).2 = false :=
  (C9_fileExists_status (fun _ => HeadOutcome.transportError "te".toList)
    "k".toList).2.2 "te".toList (by decide)

/-! ## Path helpers (node `path`, posix flavour) used by the selection code -/

/-- Checks whether `needle` occurs as a contiguous substring of `hay`,
modelling `hay.indexOf(needle) !== -1`. -/
def jsContainsSub (hay needle : JStr) : Bool := (jsIndexOfSub hay needle).isSome

/-- Splits a posix path at forward slashes. -/
def splitOnSlash (p : JStr) : List JStr := p.splitOn '/'

/-- Index of the last dot of a string, if any. -/
def lastDotIdx (l : JStr) : Option Nat :=
  l.enum.foldl (fun acc ic => if ic.2 = '.' then some ic.1 else acc) none

/-- Model of `path.extname` (posix): the extension of the last path
component, empty when the component has no dot after its first character
(so dotfiles and the component ".." have no extension). -/
def extnameJ (p : JStr) : JStr :=
  let base := ((splitOnSlash p).getLast?).getD []
  if base = "..".toList then []
  else
    match lastDotIdx base with
    | none => []
    | some 0 => []
    | some i => base.drop i

/-- Drops empty segments and "." segments from a split path. -/
def dropDotSegs (segs : List JStr) : List JStr :=
  segs.filter (fun s => !s.isEmpty && s != ".".toList)

/-- Resolves ".." segments against an accumulator the way absolute posix
paths are resolved: ".." pops one segment and is dropped at the root. -/
def resolveDotsAbs : List JStr → List JStr → List JStr
  | [], acc => acc.reverse
  | s :: rest, acc =>
    if s = "..".toList then resolveDotsAbs rest acc.tail
    else resolveDotsAbs rest (s :: acc)

/-- Drops the longest common prefix of two segment lists. -/
def dropCommonSegs : List JStr → List JStr → List JStr × List JStr
  | a :: as, b :: bs => if a = b then dropCommonSegs as bs else (a :: as, b :: bs)
  | as, bs => (as, bs)

/-- Model of `path.relative` (posix) for the paths the selection code feeds
it (paths interpreted against a common working directory): both arguments
are segment-resolved, the common prefix is dropped, and the result walks up
with ".." segments before walking down the remainder. -/
def pathRelative (f t : JStr) : JStr :=
  let fs := resolveDotsAbs (dropDotSegs (splitOnSlash f)) []
  let ts := resolveDotsAbs (dropDotSegs (splitOnSlash t)) []
  let (fr, tr) := dropCommonSegs fs ts
  List.intercalate "/".toList (fr.map (fun _ => "..".toList) ++ tr)

/-! ## File selection (`lib/assetProcessor.js`) -/

/-- Embedding of the helper `_stripRoot` (assetProcessor.js lines 663-675):
backslashes become forward slashes in both arguments; when the posix root
occurs in the file path, `posixRoot.length` characters are dropped from the
front and one remaining leading slash is removed. -/
def _stripRoot (file root : JStr) : JStr :=
  let posixRoot := root.map (fun c => if c = Char.ofNat 92 then '/' else c)
  let f := file.map (fun c => if c = Char.ofNat 92 then '/' else c)
  match jsIndexOfSub f posixRoot with
  | some _ => stripOneLeadingSlash (f.drop posixRoot.length)
  | none => f

/-- Embedding of `_extensionMatch` (assetProcessor.js lines 1269-1274): a
missing or empty extension set is a wildcard, otherwise the lowercased
extension of the lowercased path must equal one of the lowercased
extensions. -/
def _extensionMatch (filePath : JStr) (extensions : Option (List JStr)) : Bool :=
  let fp := jsToLower filePath
  match extensions with
  | none => true
  | some exts =>
    exts.isEmpty || exts.any (fun ext => jsToLower (extnameJ fp) == jsToLower ext)

/-- Embedding of the ranking helper `_preference` (assetProcessor.js lines
830-854): the index of the first preference entry the lowercased file name
matches; an entry with an extension requires an exact match, an
extensionless entry requires that `path.relative(entry, fileName)` contains
no ".." substring; unmatched files rank at the length of the list. -/
def _preference (preferences : List JStr) (fileName : JStr) : Nat :=
  let fn := jsToLower fileName
  (preferences.findIdx? (fun p =>
    let cp := jsToLower p
    if !(extnameJ cp).isEmpty then cp == fn
    else !(jsContainsSub (pathRelative cp fn) "..".toList))).getD preferences.length

/-- Embedding of the filter body inside `_getRelevantFiles`
(assetProcessor.js lines 771-794): a file explicitly named in the
`preference` list (case-insensitively) is kept; otherwise it is kept
exactly when its extension matches and no exclusion entry is a
case-insensitive prefix of its path. -/
def _keepFile (extensions preference exclusions : List JStr) (file : JStr) : Bool :=
  let extensionMatch := _extensionMatch file (some extensions)
  let excluded := exclusions.any (fun ex => (jsToLower ex).isPrefixOf (jsToLower file))
  let included := preference.any (fun p => jsToLower file == jsToLower p)
  if included then true
  else if extensionMatch then !excluded
  else false

/-- Embedding of the sort comparator (assetProcessor.js lines 802-805): the
preference-rank difference when nonzero, otherwise the case-SENSITIVE
JavaScript string comparison of the two paths. -/
def jsCmp (pref2 : List JStr) (a b : JStr) : Int :=
  let d : Int := (_preference pref2 a : Int) - (_preference pref2 b : Int)
  if d ≠ 0 then d
  else if jsLtb a b then -1
  else if jsLtb b a then 1
  else 0

/-- Sorting relation induced by the comparator: `comparator(a,b) <= 0`. -/
def jsSortLe (pref2 : List JStr) (a b : JStr) : Prop := jsCmp pref2 a b ≤ 0

instance jsSortLeDecidable (pref2 : List JStr) : DecidableRel (jsSortLe pref2) := by
  unfold jsSortLe
  infer_instance

/-- Embedding of the pure core of `_getRelevantFiles` (assetProcessor.js
lines 748-821).  Filesystem effects are inputs: `specificFiles` are the
resolved `files` configuration entries and `dirFiles` the concatenated
recursive listings of the configured directories (in the callback order the
code observed).  The code prepends the specific files, strips the root from
every path, filters, extends the preference list with the stripped specific
files, and sorts with the comparator.  `Array.prototype.sort` is modelled
by insertion sort, which agrees with every correct sort here because the
comparator only ties identical strings. -/
def _getRelevantFiles (root : JStr) (specificFiles dirFiles : List JStr)
    (extensions preference exclusions : List JStr) : List JStr :=
  let files0 := (specificFiles ++ dirFiles).map (fun f => _stripRoot f root)
  let files1 := files0.filter (_keepFile extensions preference exclusions)
  let pref2 := preference ++ specificFiles.map (fun f => _stripRoot f root)
  List.insertionSort (jsSortLe pref2) files1

/-! ## Constructor extension defaults (`AssetProcessor`, C10) -/

/-- Per-class target configuration, with the fields the constructor and the
selection code read.  `extensions = none` models an omitted (falsy) list. -/
structure TargetConfig where
  extensions : Option (List JStr)
  directories : List JStr
  files : List JStr
  preference : List JStr
  exclude : List JStr
deriving DecidableEq

/-- The four asset-class target configurations, each optional. -/
structure TargetsConfig where
  javascripts : Option TargetConfig
  stylesheets : Option TargetConfig
  images : Option TargetConfig
  extras : Option TargetConfig
deriving DecidableEq

/-- Default extension list for the images class (assetProcessor.js line 51). -/
def defaultImageExtensions : List JStr :=
  [".ico".toList, ".png".toList, ".jpg".toList, ".jpeg".toList,
   ".gif".toList, ".bmp".toList, ".svg".toList]

/-- Embedding of the extension-defaulting block of the `AssetProcessor`
constructor (assetProcessor.js lines 44-52): a present class whose
`extensions` is falsy receives the class default; `extras` is untouched. -/
def applyDefaultExtensions (t : TargetsConfig) : TargetsConfig :=
  { javascripts :=
      match t.javascripts with
      | some c =>
        some (if c.extensions.isNone then { c with extensions := some [".js".toList] } else c)
      | none => none
    stylesheets :=
      match t.stylesheets with
      | some c =>
        some (if c.extensions.isNone then { c with extensions := some [".css".toList] } else c)
      | none => none
    images :=
      match t.images with
      | some c =>
        some (if c.extensions.isNone then { c with extensions := some defaultImageExtensions } else c)
      | none => none
    extras := t.extras }

/-! ## Order facts about the comparator -/

/-- The JavaScript string comparison agrees with lexicographic ordering of
the character lists. -/
theorem jsLtb_iff_lex (a b : JStr) : jsLtb a b = true ↔ List.Lex (· < ·) a b := by
  induction a generalizing b with
  | nil =>
    cases b with
    | nil =>
      simp only [jsLtb, Bool.false_eq_true, false_iff]
      intro h
      cases h
    | cons y ys =>
      simp only [jsLtb, true_iff]
      exact List.Lex.nil
  | cons x xs ih =>
    cases b with
    | nil =>
      simp only [jsLtb, Bool.false_eq_true, false_iff]
      intro h
      cases h
    | cons y ys =>
      simp only [jsLtb]
      by_cases hxy : x < y
      · simp only [hxy, if_true, true_iff]
        exact List.Lex.rel hxy
      · by_cases hyx : y < x
        · simp only [hxy, hyx, if_false, if_true, Bool.false_eq_true, false_iff]
          intro h
          cases h with
          | rel h => exact hxy h
          | cons h => exact lt_irrefl _ hyx
        · have hxyeq : x = y := le_antisymm (not_lt.mp hyx) (not_lt.mp hxy)
          subst hxyeq
          simp only [hxy, if_false, lt_irrefl]
          constructor
          · intro h
            exact List.Lex.cons ((ih ys).mp h)
          · intro h
            cases h with
            | rel h => exact absurd h (lt_irrefl _)
            | cons h => exact (ih ys).mpr h

/-- Two strings neither of which compares below the other are equal. -/
theorem jsLtb_eq_of_not_lt (a b : JStr) (h1 : jsLtb a b = false)
    (h2 : jsLtb b a = false) : a = b := by
  have tri : List.Lex (· < ·) a b ∨ a = b ∨ List.Lex (· < ·) b a :=
    trichotomous_of (List.Lex (· < ·)) a b
  rcases tri with h | h | h
  · exact absurd ((jsLtb_iff_lex a b).mpr h) (by simp [h1])
  · exact h
  · exact absurd ((jsLtb_iff_lex b a).mpr h) (by simp [h2])

/-- Asymmetry of the string comparison. -/
theorem jsLtb_asymm (a b : JStr) (h : jsLtb a b = true) : jsLtb b a = false := by
  by_contra hba
  have h1 : List.Lex (· < ·) a b := (jsLtb_iff_lex a b).mp h
  have h2 : List.Lex (· < ·) b a :=
    (jsLtb_iff_lex b a).mp (Bool.of_not_eq_false hba)
  exact absurd (IsTrans.trans a b a h1 h2) (irrefl a)

/-- Transitivity of "not below": the reflexive closure order. -/
theorem jsLtb_notlt_trans (a b c : JStr) (h1 : jsLtb b a = false)
    (h2 : jsLtb c b = false) : jsLtb c a = false := by
  by_contra hca
  have hlex : List.Lex (· < ·) c a := (jsLtb_iff_lex c a).mp (Bool.of_not_eq_false hca)
  have tri : List.Lex (· < ·) b a ∨ b = a ∨ List.Lex (· < ·) a b :=
    trichotomous_of (List.Lex (· < ·)) b a
  rcases tri with h | h | h
  · exact absurd ((jsLtb_iff_lex b a).mpr h) (by simp [h1])
  · subst h
    exact absurd ((jsLtb_iff_lex c b).mpr hlex) (by simp [h2])
  · have : List.Lex (· < ·) c b := IsTrans.trans c a b hlex h
    exact absurd ((jsLtb_iff_lex c b).mpr this) (by simp [h2])

/-- Characterization of `comparator(a,b) <= 0`: strictly smaller rank, or
equal rank and `a` not above `b` in the case-sensitive string order. -/
theorem jsCmp_nonpos_iff (p : List JStr) (a b : JStr) :
    jsCmp p a b ≤ 0
      ↔ (_preference p a < _preference p b
          ∨ (_preference p a = _preference p b ∧ jsLtb b a = false)) := by
  unfold jsCmp
  rcases Nat.lt_trichotomy (_preference p a) (_preference p b) with h | h | h
  · have hd : ((_preference p a : Int) - (_preference p b : Int)) ≠ 0 := by omega
    simp only [hd, if_true]
    constructor
    · intro _
      exact Or.inl h
    · intro _
      omega
  · have hd : ¬ (((_preference p a : Int) - (_preference p b : Int)) ≠ 0) := by omega
    simp only [hd, if_false]
    cases hab : jsLtb a b with
    | true =>
      have hba := jsLtb_asymm a b hab
      simp [hab, h, hba]
    | false =>
      cases hba : jsLtb b a with
      | true => simp [hab, hba, h, Nat.lt_irrefl]
      | false => simp [hab, hba, h]
  · have hd : ((_preference p a : Int) - (_preference p b : Int)) ≠ 0 := by omega
    simp only [hd, if_true]
    constructor
    · intro hle
      omega
    · intro hor
      rcases hor with h2 | ⟨h2, _⟩ <;> omega

instance jsSortLeTotal (p : List JStr) : IsTotal JStr (jsSortLe p) := by
  constructor
  intro a b
  unfold jsSortLe
  rw [jsCmp_nonpos_iff, jsCmp_nonpos_iff]
  rcases Nat.lt_trichotomy (_preference p a) (_preference p b) with h | h | h
  · exact Or.inl (Or.inl h)
  · cases hba : jsLtb b a with
    | true => exact Or.inr (Or.inr ⟨h.symm, jsLtb_asymm b a hba⟩)
    | false => exact Or.inl (Or.inr ⟨h, rfl⟩)
  · exact Or.inr (Or.inl h)

instance jsSortLeTrans (p : List JStr) : IsTrans JStr (jsSortLe p) := by
  constructor
  intro a b c hab hbc
  unfold jsSortLe at *
  rw [jsCmp_nonpos_iff] at *
  rcases hab with h1 | ⟨h1, h1s⟩ <;> rcases hbc with h2 | ⟨h2, h2s⟩
  · exact Or.inl (h1.trans h2)
  · exact Or.inl (h2 ▸ h1)
  · exact Or.inl (h1 ▸ h2)
  · exact Or.inr ⟨h1.trans h2, jsLtb_notlt_trans a b c h1s h2s⟩

/-! ## Claim C4: ordering of the final selection -/

/-- C4 counterexample: with no preference entries, the files "B.js" and
"a.js" tie on rank, and the code orders "B.js" first because the tie-break
compares the raw strings; the claimed case-insensitive tie-break would
require "a.js" (lowercase "a.js" below "b.js") to come first, so the
adjacent pair of the actual output violates the claimed ordering. -/
theorem C4_counterexample :
    _getRelevantFiles "".toList [] ["B.js".toList, "a.js".toList]
        [".js".toList] [] []
      = ["B.js".toList, "a.js".toList]
    ∧ ¬ (_preference [] "B.js".toList < _preference [] "a.js".toList
        ∨ (_preference [] "B.js".toList = _preference [] "a.js".toList
          ∧ jsLtb (jsToLower "a.js".toList) (jsToLower "B.js".toList) = false)) := by
  constructor
  · decide
  · decide

/-- C4 (amended): in the final ordering, files are sorted by ascending
preference rank (rank as computed by `_preference` over the preference
entries followed by the stripped explicit files), and every tie between
files of equal rank is broken by CASE-SENSITIVE lexicographic comparison of
their path strings (the claim said case-insensitive). -/
theorem C4_ordering_amended (root : JStr)
    (specificFiles dirFiles extensions preference exclusions : List JStr) :
    (_getRelevantFiles root specificFiles dirFiles extensions preference exclusions).Pairwise
      (fun a b =>
        _preference (preference ++ specificFiles.map (fun f => _stripRoot f root)) a
          < _preference (preference ++ specificFiles.map (fun f => _stripRoot f root)) b
        ∨ (_preference (preference ++ specificFiles.map (fun f => _stripRoot f root)) a
            = _preference (preference ++ specificFiles.map (fun f => _stripRoot f root)) b
          ∧ jsLtb b a = false)) := by
  have h := List.sorted_insertionSort
    (jsSortLe (preference ++ specificFiles.map (fun f => _stripRoot f root)))
    (((specificFiles ++ dirFiles).map (fun f => _stripRoot f root)).filter
      (_keepFile extensions preference exclusions))
  exact h.imp (fun hab => (jsCmp_nonpos_iff _ _ _).mp hab)

/-! ## Claim C5: duplicate paths in the selection -/

/-- C5 counterexample: a file that is both an explicit `files` entry and
discovered in a listed directory appears twice in the output, so the
selection is not duplicate-free. -/
theorem C5_counterexample :
    _getRelevantFiles "".toList ["d/a.js".toList] ["d/a.js".toList]
        [".js".toList] [] []
      = ["d/a.js".toList, "d/a.js".toList]
    ∧ ¬ (_getRelevantFiles "".toList ["d/a.js".toList] ["d/a.js".toList]
        [".js".toList] [] []).Nodup := by
  constructor
  · decide
  · decide

/-- C5 (amended): the selection performs no deduplication; the output is a
permutation of the root-stripped concatenation of the explicit files and
the directory listings after filtering, so every path keeps its
multiplicity and a file both explicitly listed and discovered once appears
exactly twice. -/
theorem C5_multiplicity_amended (root : JStr)
    (specificFiles dirFiles extensions preference exclusions : List JStr) :
    (_getRelevantFiles root specificFiles dirFiles extensions preference exclusions).Perm
      (((specificFiles ++ dirFiles).map (fun f => _stripRoot f root)).filter
        (_keepFile extensions preference exclusions)) := by
  unfold _getRelevantFiles
  exact List.perm_insertionSort _ _

/-! ## Claim C6: which files are kept -/

/-- Modelled from the claim (C6 spec words, for comparison with
`_keepFile`): kept exactly when the extension matches OR the file is
explicitly listed in the `files` or `preference` configuration, and an
exclusion-prefix match drops it unless it is explicitly named in those
lists. -/
def specKeepClaim (extensions filesCfg preference exclusions : List JStr)
    (file : JStr) : Bool :=
  let explicitly := (filesCfg ++ preference).any (fun p => jsToLower file == jsToLower p)
  let extMatch := _extensionMatch file (some extensions)
  let excluded := exclusions.any (fun ex => (jsToLower ex).isPrefixOf (jsToLower file))
  (extMatch || explicitly) && (!excluded || explicitly)

/-- C6 counterexample: the file "a.txt" is explicitly listed in the `files`
configuration of the class, has a non-matching extension and no exclusion
applies, so the claim keeps it; the filter in the code consults only the
`preference` list for explicit inclusion, so the output is empty. -/
theorem C6_counterexample :
    _getRelevantFiles "".toList ["a.txt".toList] [] [".js".toList] [] [] = []
    ∧ specKeepClaim [".js".toList] ["a.txt".toList] [] [] "a.txt".toList = true := by
  constructor
  · decide
  · decide

/-- C6 (amended): a candidate (explicit files entry or discovered file,
root-stripped) is in the selection exactly when it is explicitly listed in
the PREFERENCE configuration (case-insensitively), or its extension matches
and its path does not start with an exclusion prefix (case-insensitively);
explicit `files` entries grant no inclusion or exclusion bypass at filter
time. -/
theorem C6_filter_amended (root : JStr)
    (specificFiles dirFiles extensions preference exclusions : List JStr) (file : JStr) :
    file ∈ _getRelevantFiles root specificFiles dirFiles extensions preference exclusions
      ↔ file ∈ (specificFiles ++ dirFiles).map (fun f => _stripRoot f root)
        ∧ _keepFile extensions preference exclusions file = true := by
  unfold _getRelevantFiles
  rw [(List.perm_insertionSort _ _).mem_iff]
  simp only [List.mem_filter]

/-! ## Claim C10: constructor extension defaults -/

/-- C10: at construction, a configured class that omits its extension list
receives the documented default ([".js"] for javascripts, [".css"] for
stylesheets, the image list for images) before any selection runs, a
present list is kept verbatim, the extras class is never given a default,
and a missing or empty extension list makes `_extensionMatch` a wildcard. -/
theorem C10_extension_defaults (t : TargetsConfig) (fp : JStr) :
    (applyDefaultExtensions t).javascripts
      = t.javascripts.map (fun c => { c with extensions := some (c.extensions.getD [".js".toList]) })
    ∧ (applyDefaultExtensions t).stylesheets
      = t.stylesheets.map (fun c => { c with extensions := some (c.extensions.getD [".css".toList]) })
    ∧ (applyDefaultExtensions t).images
      = t.images.map (fun c => { c with extensions := some (c.extensions.getD defaultImageExtensions) })
    ∧ (applyDefaultExtensions t).extras = t.extras
    ∧ _extensionMatch fp none = true
    ∧ _extensionMatch fp (some []) = true := by
  refine ⟨?_, ?_, ?_, rfl, rfl, by simp [_extensionMatch]⟩
  · cases h : t.javascripts with
    | none => simp [applyDefaultExtensions, h]
    | some c =>
      cases c with
      | mk ext dirs fls prefs excl =>
        cases ext <;> simp [applyDefaultExtensions, h]
  · cases h : t.stylesheets with
    | none => simp [applyDefaultExtensions, h]
    | some c =>
      cases c with
      | mk ext dirs fls prefs excl =>
        cases ext <;> simp [applyDefaultExtensions, h]
  · cases h : t.images with
    | none => simp [applyDefaultExtensions, h]
    | some c =>
      cases c with
      | mk ext dirs fls prefs excl =>
        cases ext <;> simp [applyDefaultExtensions, h]

/-! ## Claim C3: content hashing (`_hashFiles`) -/

/-- Model of the streaming `crypto` md5 hash object: `hash.update(data)`
appends the bytes to the absorbed stream, and the digest is an abstract
function of the absorbed bytes (the md5 algorithm itself is external
library code, abstracted as `md5hex` below). -/
def hashUpdate (state data : List Nat) : List Nat := state ++ data

/-- Embedding of `_hashFiles` (assetProcessor.js lines 862-874) on the
happy path (every read succeeds; `readFile` is the filesystem contents):
each file is read and fed to the hash in list order, and the callback value
is `!err && files.length && hash.digest(hex)`, whose falsy sentinel `0` for
an empty file list is modelled by `none` (a value, not an error). -/
def _hashFiles (md5hex : List Nat → JStr) (readFile : JStr → List Nat)
    (files : List JStr) : Option JStr :=
  let finalState := files.foldl (fun st f => hashUpdate st (readFile f)) []
  if files.length ≠ 0 then some (md5hex finalState) else none

/-- Feeding files one by one accumulates the concatenation of their bytes. -/
theorem hashFold_eq_join (readFile : JStr → List Nat) (files : List JStr)
    (acc : List Nat) :
    files.foldl (fun st f => hashUpdate st (readFile f)) acc
      = acc ++ (files.map readFile).flatten := by
  induction files generalizing acc with
  | nil => simp
  | cons f fs ih =>
    simp only [hashUpdate] at ih ⊢
    simp only [List.foldl_cons, List.map_cons, List.flatten_cons]
    rw [ih, List.append_assoc]

/-- C3: for every ordered file list, the content hash is the digest of the
concatenation of the byte contents of the files in list order (so identical
files, order and bytes always yield the same fingerprint), and the empty
list yields the non-error sentinel `none` rather than a digest. -/
theorem C3_hashFiles_concat (md5hex : List Nat → JStr) (readFile : JStr → List Nat)
    (files : List JStr) :
    _hashFiles md5hex readFile files
      = if files.isEmpty then none
        else some (md5hex ((files.map readFile).flatten)) := by
  unfold _hashFiles
  cases files with
  | nil => simp
  | cons f fs =>
    rw [hashFold_eq_join]
    simp

/-! ## Claim C1: check-and-update flows of `ensureAssets` -/

/-- Embedding of `_hashAndGeneratePath` (assetProcessor.js lines 910-923):
`uri = path + '/' + hash + extension`. -/
def _hashAndGeneratePath (hash : JStr) (pathSeg : JStr) (ext : JStr) : JStr :=
  pathSeg ++ "/".toList ++ hash ++ ext

/-- Result of a bundled-class check-and-update flow: the key probed on s3,
the returned url, the per-class changed flag of the result record, whether
the artifact-production/upload step ran, and the emitted `filesChecked`
events (type tag and changed flag). -/
structure CheckFlowResult where
  probedKey : JStr
  url : JStr
  changed : Bool
  uploaded : Bool
  filesCheckedEvents : List (String × Bool)
deriving DecidableEq

/-- Embedding of `_checkAndUpdateJavaScript` (assetProcessor.js lines
925-959) on the happy path: the selected files hash to `hash`, the target
key `js/<hash>.js` is probed (`exists_` is the probe answer), the
`filesChecked` event fires with `jsChanged = !exists`, the upload runs
exactly when `jsChanged || forceCdnUpdate` (its success url being the
public url of the cleaned target key, via `uploadJavaScriptToCdn` and
`putBuffer`), otherwise the already-known public url of the target key is
returned; the result record carries `jsChanged = !exists`. -/
def _checkAndUpdateJavaScript (s3 : S3Config) (force : Bool) (hash : JStr)
    (exists_ : Bool) : CheckFlowResult :=
  let getJsPath := _hashAndGeneratePath hash "js".toList ".js".toList
  let jsChanged := !exists_
  if jsChanged || force then
    { probedKey := getJsPath
      url := urlWithBucket s3 (_cleanPath getJsPath)
      changed := jsChanged
      uploaded := true
      filesCheckedEvents := [("js", jsChanged)] }
  else
    { probedKey := getJsPath
      url := urlWithBucket s3 getJsPath
      changed := jsChanged
      uploaded := false
      filesCheckedEvents := [("js", jsChanged)] }

/-- Embedding of `_checkAndUpdateCss` (assetProcessor.js lines 961-995),
identical in structure to the javascript flow with key `css/<hash>.css`. -/
def _checkAndUpdateCss (s3 : S3Config) (force : Bool) (hash : JStr)
    (exists_ : Bool) : CheckFlowResult :=
  let getCssPath := _hashAndGeneratePath hash "css".toList ".css".toList
  let cssChanged := !exists_
  if cssChanged || force then
    { probedKey := getCssPath
      url := urlWithBucket s3 (_cleanPath getCssPath)
      changed := cssChanged
      uploaded := true
      filesCheckedEvents := [("css", cssChanged)] }
  else
    { probedKey := getCssPath
      url := urlWithBucket s3 getCssPath
      changed := cssChanged
      uploaded := false
      filesCheckedEvents := [("css", cssChanged)] }

/-- Result of the images/extras flow `_checkRelativeToRoot`, which also
uploads a marker ("indicator") object when the probe came back false. -/
structure RelCheckResult where
  probedKey : JStr
  url : JStr
  changed : Bool
  uploaded : Bool
  indicatorUploaded : Bool
  filesCheckedEvents : List (String × Bool)
deriving DecidableEq

/-- Embedding of `_checkRelativeToRoot` (assetProcessor.js lines 1005-1066)
on the happy path: the marker key `<folder>/<hash>.txt` is probed, the
`filesChecked` event fires with `filesChanged = !exists`, the per-file
upload runs exactly when `filesChanged || forceCdnUpdate` (both branches
produce `urlWithBucket(folder)`: the upload path returns it through
`_uploadRelativeToRoot`, the other branch calls it directly), the marker
object is re-uploaded exactly when the probe came back false, and the
result record carries `<type>Changed = !exists`. -/
def _checkRelativeToRoot (s3 : S3Config) (force : Bool) (ty : String)
    (folder hash : JStr) (exists_ : Bool) : RelCheckResult :=
  let target := _hashAndGeneratePath hash folder ".txt".toList
  let filesChanged := !exists_
  if filesChanged || force then
    { probedKey := target
      url := urlWithBucket s3 folder
      changed := filesChanged
      uploaded := true
      indicatorUploaded := filesChanged
      filesCheckedEvents := [(ty, filesChanged)] }
  else
    { probedKey := target
      url := urlWithBucket s3 folder
      changed := filesChanged
      uploaded := false
      indicatorUploaded := filesChanged
      filesCheckedEvents := [(ty, filesChanged)] }

/-- C1: for every asset class flow of `ensureAssets`, the upload step runs
exactly when the hash-derived target key was not found by the probe or the
force flag is set; the per-class changed flag equals the negated probe
answer in every case; a `filesChecked` event carrying exactly that flag is
emitted on both branches; the probed key is the hash-derived target key;
and when the target exists and the force flag is unset, no upload happens
and the returned url is the public url of the existing target (the probed
key for js/css, the publish folder for images/extras). -/
theorem C1_ensureAssets_decision (s3 : S3Config) (force : Bool)
    (hash folder : JStr) (ty : String) (exists_ : Bool) :
    ((_checkAndUpdateJavaScript s3 force hash exists_).uploaded = (!exists_ || force)
      ∧ (_checkAndUpdateJavaScript s3 force hash exists_).changed = !exists_
      ∧ (_checkAndUpdateJavaScript s3 force hash exists_).filesCheckedEvents
          = [("js", !exists_)]
      ∧ (_checkAndUpdateJavaScript s3 force hash exists_).probedKey
          = _hashAndGeneratePath hash "js".toList ".js".toList
      ∧ (_checkAndUpdateJavaScript s3 false hash true).uploaded = false
      ∧ (_checkAndUpdateJavaScript s3 false hash true).url
          = urlWithBucket s3 (_hashAndGeneratePath hash "js".toList ".js".toList))
    ∧ ((_checkAndUpdateCss s3 force hash exists_).uploaded = (!exists_ || force)
      ∧ (_checkAndUpdateCss s3 force hash exists_).changed = !exists_
      ∧ (_checkAndUpdateCss s3 force hash exists_).filesCheckedEvents
          = [("css", !exists_)]
      ∧ (_checkAndUpdateCss s3 force hash exists_).probedKey
          = _hashAndGeneratePath hash "css".toList ".css".toList
      ∧ (_checkAndUpdateCss s3 false hash true).uploaded = false
      ∧ (_checkAndUpdateCss s3 false hash true).url
          = urlWithBucket s3 (_hashAndGeneratePath hash "css".toList ".css".toList))
    ∧ ((_checkRelativeToRoot s3 force ty folder hash exists_).uploaded = (!exists_ || force)
      ∧ (_checkRelativeToRoot s3 force ty folder hash exists_).changed = !exists_
      ∧ (_checkRelativeToRoot s3 force ty folder hash exists_).filesCheckedEvents
          = [(ty, !exists_)]
      ∧ (_checkRelativeToRoot s3 force ty folder hash exists_).probedKey
          = _hashAndGeneratePath hash folder ".txt".toList
      ∧ (_checkRelativeToRoot s3 force ty folder hash exists_).indicatorUploaded = !exists_
      ∧ (_checkRelativeToRoot s3 false ty folder hash true).uploaded = false
      ∧ (_checkRelativeToRoot s3 force ty folder hash exists_).url
          = urlWithBucket s3 folder) := by
  cases exists_ <;> cases force <;>
    simp [_checkAndUpdateJavaScript, _checkAndUpdateCss, _checkRelativeToRoot]

/-! ## Claim C7: CSS url() rebasing (`_rebaseUrls`) -/

/-- The single-quote character. -/
def quoteSChar : Char := Char.ofNat 39

/-- The double-quote character. -/
def quoteDChar : Char := Char.ofNat 34

/-- Errors a JavaScript function can throw; `_rebaseUrls` reads the
identifier `cssRoot` (assetProcessor.js line 1139), which is defined
nowhere in the repository, so evaluating it throws a ReferenceError. -/
inductive JsError where
  | referenceError (name : String)
deriving DecidableEq

deriving instance DecidableEq for Except

/-- Matcher for the parenthesized group of the url regex (assetProcessor.js
line 1088), applied to the text just after the four characters url-paren:
an optional quote, a nonempty run of characters other than quotes and the
closing paren, an optional quote, then the closing paren.  Returns
`match[1]` (quotes included) and the text after the closing paren. -/
def matchGroup (t : JStr) : Option (JStr × JStr) :=
  let openq : JStr × JStr :=
    match t with
    | c :: rest => if c = quoteSChar || c = quoteDChar then ([c], rest) else ([], t)
    | [] => ([], [])
  let body := openq.2.takeWhile (fun c => !(c = quoteSChar || c = quoteDChar || c = ')'))
  if body.isEmpty then none
  else
    match openq.2.drop body.length with
    | [] => none
    | c :: rest =>
      if c = ')' then some (openq.1 ++ body, rest)
      else if c = quoteSChar || c = quoteDChar then
        match rest with
        | c2 :: rest2 =>
          if c2 = ')' then some (openq.1 ++ body ++ [c], rest2) else none
        | [] => none
      else none

/-- Scanner for the next match of the url regex in a suffix of the css
text: the literal "url(" (case-insensitive, per the `i` flag) followed by a
successful group match.  Returns the offset of the match and `match[1]`. -/
def findUrlSuffix : JStr → Option (Nat × JStr)
  | [] => none
  | c :: rest =>
    let tryHere : Option (JStr × JStr) :=
      if c.toLower = 'u' then
        match rest with
        | r1 :: r2 :: r3 :: t =>
          if r1.toLower = 'r' && r2.toLower = 'l' && r3 = '(' then matchGroup t
          else none
        | _ => none
      else none
    match tryHere with
    | some (g, _) => some (0, g)
    | none => (findUrlSuffix rest).map (fun pr => (pr.1 + 1, pr.2))

/-- Resolution of "." and ".." segments: ".." pops a segment, and above the
top it is dropped for absolute paths and kept for relative ones. -/
def normDots (isAbs : Bool) : List JStr → List JStr → List JStr
  | [], acc => acc.reverse
  | s :: rest, acc =>
    if s = "..".toList then
      match acc with
      | [] => if isAbs then normDots isAbs rest [] else normDots isAbs rest [s]
      | t :: acc2 =>
        if t = "..".toList then normDots isAbs rest (s :: acc)
        else normDots isAbs rest acc2
    else normDots isAbs rest (s :: acc)

/-- Model of `path.normalize` (posix): empty input becomes ".", segments
are cleaned of "." and resolved for "..", a trailing separator is kept, and
an empty residue collapses to "/", "./" or ".". -/
def pathNormalize (p : JStr) : JStr :=
  if p.isEmpty then ".".toList
  else
    let isAbs := p.take 1 = "/".toList
    let trailingSep := p.getLast? = some '/'
    let body := List.intercalate "/".toList (normDots isAbs (dropDotSegs (splitOnSlash p)) [])
    if body.isEmpty then
      if isAbs then "/".toList
      else if trailingSep then "./".toList else ".".toList
    else
      (if isAbs then "/".toList else []) ++ body
        ++ (if trailingSep then "/".toList else [])

/-- Test of `externalHttpRegex` (line 1089): `^(http(s)?:)?\/\//i`. -/
def externalHttpTest (u : JStr) : Bool :=
  "//".toList.isPrefixOf u
    || "http://".toList.isPrefixOf (jsToLower u)
    || "https://".toList.isPrefixOf (jsToLower u)

/-- Test of `base64Regex` (line 1091): `^data:.+;base64` (case-insensitive);
";base64" must occur after "data:" plus at least one character. -/
def base64Test (u : JStr) : Bool :=
  "data:".toList.isPrefixOf (jsToLower u)
    && jsContainsSub ((jsToLower u).drop 6) ";base64".toList

/-- Test of `absoluteUrlRegex` (line 1090): `^[\/\\][^\/]`. -/
def absoluteUrlTest (u : JStr) : Bool :=
  match u with
  | a :: b :: _ => (a = '/' || a = Char.ofNat 92) && !(b = '/')
  | _ => false

/-- Quote cleaning (line 1106): one leading and one trailing quote removed. -/
def stripQuotes (u : JStr) : JStr :=
  let u1 :=
    match u with
    | c :: rest => if c = quoteSChar || c = quoteDChar then rest else u
    | [] => []
  match u1.getLast? with
  | some c => if c = quoteSChar || c = quoteDChar then u1.dropLast else u1
  | none => u1

/-- Embedding of the scanning loop of `_rebaseUrls` (assetProcessor.js
lines 1100-1150).  `pos` is `urlRegex.lastIndex`.  For each match: external
and base64 urls are skipped (scanning resumes after the match); an absolute
url is spliced back unchanged by exact byte range; a relative url reaches
`.replace(cssRoot, ...)` whose free identifier `cssRoot` throws a
ReferenceError.  `startIndex` uses `match[0].indexOf(match[1])` as in line
1102.  The fuel argument only bounds the iteration count and exceeds it on
every input reachable from `_rebaseUrls`. -/
def rebaseGo : Nat → JStr → Nat → Except JsError JStr
  | 0, css, _ => .ok css
  | fuel + 1, css, pos =>
    match findUrlSuffix (css.drop pos) with
    | none => .ok css
    | some (off, group) =>
      let mIdx := pos + off
      let match0 := "url(".toList ++ group ++ ")".toList
      let startIndex := mIdx + (jsIndexOfSub match0 group).getD 0
      let endIndex := startIndex + group.length
      let url := stripQuotes group
      if !(externalHttpTest url) && !(base64Test url) then
        if absoluteUrlTest (pathNormalize url) then
          rebaseGo fuel (css.take startIndex ++ pathNormalize url ++ css.drop endIndex)
            endIndex
        else
          .error (.referenceError "cssRoot")
      else
        rebaseGo fuel css (mIdx + match0.length)

/-- Embedding of `_rebaseUrls` (assetProcessor.js lines 1078-1153).  The
css file path is normalized (line 1098) but only consumed by the relative
branch, which throws before reading it. -/
def _rebaseUrls (file css : JStr) : Except JsError JStr :=
  let _file := pathNormalize file
  rebaseGo (css.length + 1) css 0

/-- C7: evaluating the rebaser on the example given by the claim (a relative url
in a css file) throws `ReferenceError: cssRoot is not defined` instead of
producing `url(/images/logo.png)`; external, base64 and absolute urls pass
through as specified, which confirms the crash is specific to the relative
branch the claim describes. -/
theorem C7_rebase_relative_crashes :
    _rebaseUrls "/proj/stylesheets/style.css".toList
        "background: url(../images/logo.png)".toList
      = Except.error (JsError.referenceError "cssRoot")
    ∧ _rebaseUrls "/proj/stylesheets/style.css".toList
        "background: url(https://cdn.example.com/x.png)".toList
      = Except.ok "background: url(https://cdn.example.com/x.png)".toList
    ∧ _rebaseUrls "/proj/stylesheets/style.css".toList
        "background: url(data:image/png;base64,AAAA)".toList
      = Except.ok "background: url(data:image/png;base64,AAAA)".toList
    ∧ _rebaseUrls "/proj/stylesheets/style.css".toList
        "background: url(/images/logo.png)".toList
      = Except.ok "background: url(/images/logo.png)".toList := by
  refine ⟨by decide, by decide, by decide, by decide⟩

end AssetProc
